import Mathlib

/-!
# Knowdes — formal model of the graph data store and its operations

Shallow embedding of the core of the Knowdes knowledge-graph application
(`src/App.tsx` and the `GraphVisualizer` component).  Nodes, links and the
graph container follow the repository's `types` shapes as used by the code;
`sanitizeGraphData`, the merge body of `handleExpandSelection`,
`handleGenerate` and `handleExpandSelection` are translated statement by
statement.  External collaborators (the Gemini service calls) are opaque: a
call's outcome is passed in as an `Except`/value argument.
-/

/-- A node of the knowledge graph: identifier, display label, category group
and free-text description (positions are simulation-local working state and
are modelled separately for the visualizer). -/
structure GraphNode where
  id : String
  label : String
  group : String
  description : String
  deriving Repr, DecidableEq

/-- A link endpoint as the runtime sees it: either a plain identifier string
or a resolved node object (d3 rewrites endpoints to node objects), mirroring
the `typeof l.source === 'object' ? l.source.id : l.source` pattern. -/
inductive NodeRef where
  | idStr (s : String)
  | node (n : GraphNode)
  deriving Repr, DecidableEq

/-- Extract the identifier from an endpoint, exactly as the repeated
`typeof x === 'object' ? x.id : x` expression does. -/
def NodeRef.refId : NodeRef → String
  | .idStr s => s
  | .node n => n.id

/-- A directed link between two nodes, with an optional relation label. -/
structure GraphLink where
  source : NodeRef
  target : NodeRef
  label : Option String := none
  deriving Repr, DecidableEq

/-- The graph container: a node list plus a link list
(`KnowledgeGraphData` in the repository's types). -/
structure KnowledgeGraphData where
  nodes : List GraphNode
  links : List GraphLink
  deriving Repr, DecidableEq

/-- The ordered (source identifier, target identifier) pair of a link. -/
def GraphLink.pair (l : GraphLink) : String × String :=
  (l.source.refId, l.target.refId)

/-- `sanitizeGraphData` from `src/App.tsx`: keeps the node list as given and
filters the link list down to links whose source and target identifiers both
occur among the node identifiers. -/
def sanitizeGraphData (nodes : List GraphNode) (links : List GraphLink) :
    KnowledgeGraphData :=
  let nodeIds := nodes.map (·.id)
  let validLinks := links.filter fun l =>
    nodeIds.contains l.source.refId && nodeIds.contains l.target.refId
  { nodes := nodes, links := validLinks }

/-- The link-deduplication key used by the merge in `handleExpandSelection`:
the template string `s-t` built from the two endpoint identifiers. -/
def linkKey (l : GraphLink) : String :=
  l.source.refId ++ "-" ++ l.target.refId

/-- The merge body of `handleExpandSelection` (`src/App.tsx`), i.e. the
`setGraphData` updater for the non-null previous graph: drop fragment nodes
whose id already exists, append the rest, drop fragment links whose
`linkKey` matches an existing link, append the rest, then re-filter the
whole link list against the merged node-id set. -/
def mergeGraphs (prevData newData : KnowledgeGraphData) : KnowledgeGraphData :=
  let newNodesRaw := newData.nodes
  let newLinksRaw := newData.links
  let existingIds := prevData.nodes.map (·.id)
  let uniqueNewNodes := newNodesRaw.filter fun n => !(existingIds.contains n.id)
  let mergedNodes := prevData.nodes ++ uniqueNewNodes
  let allNodeIds := mergedNodes.map (·.id)
  let existingLinks := prevData.links.map linkKey
  let uniqueNewLinks := newLinksRaw.filter fun l =>
    !(existingLinks.contains (linkKey l))
  let mergedLinks := prevData.links ++ uniqueNewLinks
  let validLinks := mergedLinks.filter fun l =>
    allNodeIds.contains l.source.refId && allNodeIds.contains l.target.refId
  { nodes := mergedNodes, links := validLinks }

/-- The full `setGraphData` updater passed by `handleExpandSelection`: when
the previous graph is null the raw fragment becomes the graph, otherwise the
fragment is merged. -/
def expandMergeUpdater (prevData : Option KnowledgeGraphData)
    (newData : KnowledgeGraphData) : KnowledgeGraphData :=
  match prevData with
  | none => newData
  | some prev => mergeGraphs prev newData

/-- The slice of `App` component state the core operations read and write:
topic input, current graph, user-visible error text, selection set, and the
two busy flags. -/
structure AppState where
  topic : String
  graphData : Option KnowledgeGraphData
  graphError : String
  selectedNodeIds : List String
  loadingGraph : Bool
  isExpanding : Bool
  deriving Repr, DecidableEq

/-- `handleGenerate` from `src/App.tsx`, with the external
`generateKnowledgeGraph` call's outcome passed in as an `Except`: guard on
empty topic, clear error/graph/selection and raise the busy flag, then on
success install the sanitized result and on failure record
`err.message || "Failed to generate graph"`; finally lower the busy flag. -/
def handleGenerate (s : AppState) (result : Except String KnowledgeGraphData) :
    AppState :=
  if s.topic = "" then s
  else
    let s1 := { s with loadingGraph := true, graphError := "", graphData := none,
                       selectedNodeIds := [] }
    let s2 := match result with
      | .ok data =>
          { s1 with graphData := some (sanitizeGraphData data.nodes data.links) }
      | .error msg =>
          { s1 with graphError := if msg = "" then "Failed to generate graph" else msg }
    { s2 with loadingGraph := false }

/-- `handleExpandSelection` from `src/App.tsx`, with the external
`expandGraph` call's outcome passed in as an `Except`.  The returned `Bool`
records whether the collaborator was invoked.  Guard: missing graph or empty
selection returns unchanged without a call.  Otherwise the busy flag is
raised and the error text cleared; on success the merge updater is applied
to the current graph, on failure the error is only logged (no state change);
finally the busy flag is lowered. -/
def handleExpandSelection (s : AppState)
    (result : Except String KnowledgeGraphData) : AppState × Bool :=
  match s.graphData with
  | none => (s, false)
  | some prev =>
    if s.selectedNodeIds.isEmpty then (s, false)
    else
      let s1 := { s with isExpanding := true, graphError := "" }
      let s2 := match result with
        | .ok newData => { s1 with graphData := some (mergeGraphs prev newData) }
        | .error _ => s1
      ({ s2 with isExpanding := false }, true)

/-- The props of `GraphVisualizer` that its two effects depend on: the graph
snapshot, the container dimensions and the selection set (the click handler
is kept in a ref precisely so it is not a dependency). -/
structure VizProps where
  data : Option KnowledgeGraphData
  width : Nat
  height : Nat
  selectedNodeIds : List String
  deriving Repr, DecidableEq

/-- Whether the simulation-building effect re-runs between two renders: its
dependency array is `[data, dimensions]`. -/
def simulationEffectRuns (oldP newP : VizProps) : Bool :=
  !(oldP.data == newP.data && oldP.width == newP.width && oldP.height == newP.height)

/-- Whether the selection-highlight effect re-runs between two renders: its
dependency array is `[selectedNodeIds, data]`. -/
def highlightEffectRuns (oldP newP : VizProps) : Bool :=
  !(oldP.selectedNodeIds == newP.selectedNodeIds && oldP.data == newP.data)

/-- The rendered state of one node circle: simulation-owned position plus
the presentation attributes the highlight effect writes. -/
structure NodeVisual where
  id : String
  x : Int
  y : Int
  stroke : String
  strokeWidth : ℚ
  strokeOpacity : ℚ
  r : ℚ
  deriving Repr, DecidableEq

/-- The body of the selection-highlight effect in `GraphVisualizer`: for
every `.node-circle` it sets stroke `#34d399`/`#374151`, stroke width
`4`/`1.5`, stroke opacity `1`/`0.8` and radius `24`/`20` according to
`selectedNodeIds.has(d.id)`; it touches nothing else. -/
def highlightPass (selectedNodeIds : List String) (circles : List NodeVisual) :
    List NodeVisual :=
  circles.map fun d =>
    { d with
      stroke := if selectedNodeIds.contains d.id then "#34d399" else "#374151"
      strokeWidth := if selectedNodeIds.contains d.id then 4 else 3 / 2
      strokeOpacity := if selectedNodeIds.contains d.id then 1 else 4 / 5
      r := if selectedNodeIds.contains d.id then 24 else 20 }

/-- Concrete node builder for witnesses and counterexamples. -/
def mkNode (i l : String) : GraphNode :=
  { id := i, label := l, group := "g", description := "" }

/-- Concrete link builder (string endpoints) for witnesses and
counterexamples. -/
def mkLink (s t : String) : GraphLink :=
  { source := .idStr s, target := .idStr t }

/-- C1 (counterexample): `sanitizeGraphData` does not enforce invariant 1 or
invariant 3 — on input nodes `[a, a]` (duplicate identifier) and links
`[(a,a), (a,a)]` (duplicate direction-sensitive pair) its output keeps both
duplicate nodes and both duplicate links. -/
theorem sanitize_invariants_counterexample :
    ¬ ((((sanitizeGraphData [mkNode "a" "A", mkNode "a" "A2"]
            [mkLink "a" "a", mkLink "a" "a"]).nodes.map (·.id)).Nodup) ∧
       (((sanitizeGraphData [mkNode "a" "A", mkNode "a" "A2"]
            [mkLink "a" "a", mkLink "a" "a"]).links.map GraphLink.pair).Nodup)) := by
  decide

/-- C1 (amended): every graph mutation output satisfies invariant 2 — each
link kept by `sanitizeGraphData` (initial generation and import path) and
each link kept by the expansion merge has its source and target identifier
among the result's node identifiers — while invariants 1 and 3 (unique node
identifiers, no duplicate links) are not enforced. -/
theorem graph_mutations_no_dangling_links (nodes : List GraphNode)
    (links : List GraphLink) (G F : KnowledgeGraphData) :
    (∀ l ∈ (sanitizeGraphData nodes links).links,
      l.source.refId ∈ (sanitizeGraphData nodes links).nodes.map (·.id) ∧
      l.target.refId ∈ (sanitizeGraphData nodes links).nodes.map (·.id)) ∧
    (∀ l ∈ (mergeGraphs G F).links,
      l.source.refId ∈ (mergeGraphs G F).nodes.map (·.id) ∧
      l.target.refId ∈ (mergeGraphs G F).nodes.map (·.id)) := by
  constructor
  · intro l hl
    simp only [sanitizeGraphData] at hl ⊢
    obtain ⟨-, hp⟩ := List.mem_filter.mp hl
    rw [Bool.and_eq_true] at hp
    exact ⟨List.elem_iff.mp hp.1, List.elem_iff.mp hp.2⟩
  · intro l hl
    simp only [mergeGraphs] at hl ⊢
    obtain ⟨-, hp⟩ := List.mem_filter.mp hl
    rw [Bool.and_eq_true] at hp
    exact ⟨List.elem_iff.mp hp.1, List.elem_iff.mp hp.2⟩

/-- C1 witness: on concrete inputs the sanitized output's one link and the
merged output's one link each have both endpoints among the respective node
identifiers. -/
theorem graph_mutations_no_dangling_links_witness :
    ((mkLink "a" "b").source.refId ∈
      ((sanitizeGraphData [mkNode "a" "A", mkNode "b" "B"]
          [mkLink "a" "b"]).nodes.map (·.id)) ∧
    (mkLink "a" "b").target.refId ∈
      ((sanitizeGraphData [mkNode "a" "A", mkNode "b" "B"]
          [mkLink "a" "b"]).nodes.map (·.id))) ∧
    ((mkLink "a" "b").source.refId ∈
      ((mergeGraphs ⟨[mkNode "a" "A"], []⟩
          ⟨[mkNode "b" "B"], [mkLink "a" "b"]⟩).nodes.map (·.id)) ∧
    (mkLink "a" "b").target.refId ∈
      ((mergeGraphs ⟨[mkNode "a" "A"], []⟩
          ⟨[mkNode "b" "B"], [mkLink "a" "b"]⟩).nodes.map (·.id))) :=
  ⟨(graph_mutations_no_dangling_links [mkNode "a" "A", mkNode "b" "B"]
      [mkLink "a" "b"] ⟨[mkNode "a" "A"], []⟩
      ⟨[mkNode "b" "B"], [mkLink "a" "b"]⟩).1 (mkLink "a" "b") (by decide),
    (graph_mutations_no_dangling_links [mkNode "a" "A", mkNode "b" "B"]
      [mkLink "a" "b"] ⟨[mkNode "a" "A"], []⟩
      ⟨[mkNode "b" "B"], [mkLink "a" "b"]⟩).2 (mkLink "a" "b") (by decide)⟩

/-- C2: every link in the result of merging a fragment into a graph has both
its source and target identifier present in the merged graph's node set —
no dangling reference survives the merge. -/
theorem merge_no_dangling_links (G F : KnowledgeGraphData) :
    ∀ l ∈ (mergeGraphs G F).links,
      l.source.refId ∈ (mergeGraphs G F).nodes.map (·.id) ∧
      l.target.refId ∈ (mergeGraphs G F).nodes.map (·.id) := by
  intro l hl
  simp only [mergeGraphs] at hl ⊢
  obtain ⟨-, hp⟩ := List.mem_filter.mp hl
  rw [Bool.and_eq_true] at hp
  exact ⟨List.elem_iff.mp hp.1, List.elem_iff.mp hp.2⟩

/-- C2 witness: merging a fragment whose link `(X,Y)` references nodes
present in neither side leaves the kept link `(a,b)` with both endpoints in
the merged node set (and the dangling link itself is dropped). -/
theorem merge_no_dangling_links_witness :
    ((mkLink "a" "b").source.refId ∈
        ((mergeGraphs ⟨[mkNode "a" "A", mkNode "b" "B"], [mkLink "a" "b"]⟩
            ⟨[], [mkLink "X" "Y"]⟩).nodes.map (·.id)) ∧
      (mkLink "a" "b").target.refId ∈
        ((mergeGraphs ⟨[mkNode "a" "A", mkNode "b" "B"], [mkLink "a" "b"]⟩
            ⟨[], [mkLink "X" "Y"]⟩).nodes.map (·.id))) ∧
    (mergeGraphs ⟨[mkNode "a" "A", mkNode "b" "B"], [mkLink "a" "b"]⟩
        ⟨[], [mkLink "X" "Y"]⟩).links = [mkLink "a" "b"] :=
  ⟨merge_no_dangling_links ⟨[mkNode "a" "A", mkNode "b" "B"], [mkLink "a" "b"]⟩
      ⟨[], [mkLink "X" "Y"]⟩ (mkLink "a" "b") (by decide),
    by decide⟩

/-- C4: existing-wins conflict resolution — for any identifier already
present in the existing graph, the merged graph's nodes with that identifier
are exactly the existing graph's nodes with that identifier; the fragment's
colliding node is discarded. -/
theorem merge_existing_wins (G F : KnowledgeGraphData) (i : String)
    (h : i ∈ G.nodes.map (·.id)) :
    ((mergeGraphs G F).nodes.filter fun n => n.id == i) =
      (G.nodes.filter fun n => n.id == i) := by
  simp only [mergeGraphs]
  rw [List.filter_append]
  have hnil : ((F.nodes.filter fun n =>
      !((G.nodes.map (·.id)).contains n.id)).filter fun n => n.id == i) = [] := by
    apply List.filter_eq_nil_iff.mpr
    intro n hn hcon
    obtain ⟨-, hpred⟩ := List.mem_filter.mp hn
    have hni : n.id = i := eq_of_beq hcon
    rw [Bool.not_eq_true'] at hpred
    rw [hni] at hpred
    have hc : (G.nodes.map fun x => x.id).contains i = true := List.elem_iff.mpr h
    rw [hc] at hpred
    simp at hpred
  rw [hnil, List.append_nil]

/-- C4 witness: merging a fragment that re-declares node `b` with a new
label keeps exactly the existing graph's `b` node. -/
theorem merge_existing_wins_witness :
    ((mergeGraphs ⟨[mkNode "a" "A", mkNode "b" "B"], []⟩
        ⟨[mkNode "b" "Bnew", mkNode "c" "C"], []⟩).nodes.filter
      fun n => n.id == "b") =
      (([mkNode "a" "A", mkNode "b" "B"] : List GraphNode).filter
        fun n => n.id == "b") :=
  merge_existing_wins ⟨[mkNode "a" "A", mkNode "b" "B"], []⟩
    ⟨[mkNode "b" "Bnew", mkNode "c" "C"], []⟩ "b" (by decide)

/-- Unfolding lemma: the node list computed by the merge. -/
theorem mergeGraphs_nodes (G F : KnowledgeGraphData) :
    (mergeGraphs G F).nodes =
      G.nodes ++ F.nodes.filter fun n => !((G.nodes.map (·.id)).contains n.id) :=
  rfl

/-- Unfolding lemma: the link list computed by the merge. -/
theorem mergeGraphs_links (G F : KnowledgeGraphData) :
    (mergeGraphs G F).links =
      (G.links ++ F.links.filter fun l =>
          !((G.links.map linkKey).contains (linkKey l))).filter fun l =>
        ((mergeGraphs G F).nodes.map (·.id)).contains l.source.refId &&
          ((mergeGraphs G F).nodes.map (·.id)).contains l.target.refId :=
  rfl

/-- C3 (counterexample): merge is not idempotent on arbitrary graphs — when
the existing graph holds a dangling link `(a, b-c)` and the fragment's link
`(a-b, c)` collides with it on the `-`-joined dedup key, the first merge
drops both links but the second merge re-admits the fragment link, so the
link pair sets of `merge(merge(G,F),F)` and `merge(G,F)` differ. -/
theorem merge_idempotence_counterexample :
    ("a-b", "c") ∈
      ((mergeGraphs
          (mergeGraphs ⟨[mkNode "a" "A"], [mkLink "a" "b-c"]⟩
            ⟨[mkNode "a-b" "AB", mkNode "c" "C"], [mkLink "a-b" "c"]⟩)
          ⟨[mkNode "a-b" "AB", mkNode "c" "C"], [mkLink "a-b" "c"]⟩).links.map
        GraphLink.pair) ∧
    ("a-b", "c") ∉
      ((mergeGraphs ⟨[mkNode "a" "A"], [mkLink "a" "b-c"]⟩
          ⟨[mkNode "a-b" "AB", mkNode "c" "C"], [mkLink "a-b" "c"]⟩).links.map
        GraphLink.pair) := by
  decide

/-- C3 (amended): merge is idempotent for every existing graph that has no
dangling links (the invariant the application maintains for every graph it
holds): re-merging the same fragment returns the merged graph unchanged —
in particular its node-identifier set and link pair set gain nothing. -/
theorem merge_idempotent (G F : KnowledgeGraphData)
    (hG : ∀ l ∈ G.links,
      l.source.refId ∈ G.nodes.map (·.id) ∧
        l.target.refId ∈ G.nodes.map (·.id)) :
    mergeGraphs (mergeGraphs G F) F = mergeGraphs G F := by
  set G' := mergeGraphs G F with hG'
  have hids : ∀ n ∈ F.nodes, n.id ∈ G'.nodes.map (·.id) := by
    intro n hn
    rw [hG', mergeGraphs_nodes, List.map_append]
    by_cases hin : n.id ∈ G.nodes.map (·.id)
    · exact List.mem_append_left _ hin
    · refine List.mem_append_right _ (List.mem_map_of_mem _ ?_)
      refine List.mem_filter.mpr ⟨hn, ?_⟩
      simp [hin]
  have hnodes2 : (mergeGraphs G' F).nodes = G'.nodes := by
    rw [mergeGraphs_nodes]
    have hnil : (F.nodes.filter fun n =>
        !((G'.nodes.map (·.id)).contains n.id)) = [] := by
      apply List.filter_eq_nil_iff.mpr
      intro n hn hpred
      have hc : (G'.nodes.map (·.id)).contains n.id = true :=
        List.elem_iff.mpr (hids n hn)
      rw [hc] at hpred
      simp at hpred
    rw [hnil, List.append_nil]
  have hvalidG' : ∀ l ∈ G'.links,
      (((G'.nodes.map (·.id)).contains l.source.refId &&
        (G'.nodes.map (·.id)).contains l.target.refId) = true) := by
    intro l hl
    rw [hG', mergeGraphs_links] at hl
    exact (List.mem_filter.mp hl).2
  have hkeys : ∀ l ∈ F.links,
      ((G'.nodes.map (·.id)).contains l.source.refId &&
        (G'.nodes.map (·.id)).contains l.target.refId) = true →
      linkKey l ∈ G'.links.map linkKey := by
    intro l hlF hval
    by_cases hk : linkKey l ∈ G.links.map linkKey
    · obtain ⟨g, hgmem, hgkey⟩ := List.mem_map.mp hk
      have hge := hG g hgmem
      have hgv : ((G'.nodes.map (·.id)).contains g.source.refId &&
          (G'.nodes.map (·.id)).contains g.target.refId) = true := by
        rw [hG', mergeGraphs_nodes, List.map_append, Bool.and_eq_true]
        exact ⟨List.elem_iff.mpr (List.mem_append_left _ hge.1),
          List.elem_iff.mpr (List.mem_append_left _ hge.2)⟩
      have hgmem' : g ∈ G'.links := by
        rw [hG', mergeGraphs_links]
        exact List.mem_filter.mpr ⟨List.mem_append_left _ hgmem, hgv⟩
      rw [← hgkey]
      exact List.mem_map_of_mem _ hgmem'
    · have hl1 : l ∈ F.links.filter fun l' =>
          !((G.links.map linkKey).contains (linkKey l')) := by
        refine List.mem_filter.mpr ⟨hlF, ?_⟩
        simp [hk]
      have hmem : l ∈ G'.links := by
        rw [hG', mergeGraphs_links]
        exact List.mem_filter.mpr ⟨List.mem_append_right _ hl1, hval⟩
      exact List.mem_map_of_mem _ hmem
  have hlinks2 : (mergeGraphs G' F).links = G'.links := by
    rw [mergeGraphs_links, hnodes2, List.filter_append]
    have h1 : (G'.links.filter fun l =>
        (G'.nodes.map (·.id)).contains l.source.refId &&
          (G'.nodes.map (·.id)).contains l.target.refId) = G'.links :=
      List.filter_eq_self.mpr hvalidG'
    have h2 : ((F.links.filter fun l =>
        !((G'.links.map linkKey).contains (linkKey l))).filter fun l =>
          (G'.nodes.map (·.id)).contains l.source.refId &&
            (G'.nodes.map (·.id)).contains l.target.refId) = [] := by
      apply List.filter_eq_nil_iff.mpr
      intro l hl hpred
      obtain ⟨hlF, hkf⟩ := List.mem_filter.mp hl
      have hmem := hkeys l hlF hpred
      have hc : (G'.links.map linkKey).contains (linkKey l) = true :=
        List.elem_iff.mpr hmem
      rw [hc] at hkf
      simp at hkf
    rw [h1, h2, List.append_nil]
  calc mergeGraphs G' F
      = ⟨(mergeGraphs G' F).nodes, (mergeGraphs G' F).links⟩ := rfl
    _ = ⟨G'.nodes, G'.links⟩ := by rw [hnodes2, hlinks2]
    _ = G' := rfl

/-- C3 witness: idempotence applied at a concrete dangling-free graph and a
fragment that both re-declares an existing node and adds a new one. -/
theorem merge_idempotent_witness :
    mergeGraphs
        (mergeGraphs ⟨[mkNode "a" "A", mkNode "b" "B"], [mkLink "a" "b"]⟩
          ⟨[mkNode "b" "Bnew", mkNode "c" "C"], [mkLink "b" "c", mkLink "a" "b"]⟩)
        ⟨[mkNode "b" "Bnew", mkNode "c" "C"], [mkLink "b" "c", mkLink "a" "b"]⟩ =
      mergeGraphs ⟨[mkNode "a" "A", mkNode "b" "B"], [mkLink "a" "b"]⟩
        ⟨[mkNode "b" "Bnew", mkNode "c" "C"], [mkLink "b" "c", mkLink "a" "b"]⟩ :=
  merge_idempotent ⟨[mkNode "a" "A", mkNode "b" "B"], [mkLink "a" "b"]⟩
    ⟨[mkNode "b" "Bnew", mkNode "c" "C"], [mkLink "b" "c", mkLink "a" "b"]⟩
    (by decide)

/-- C5 (code behaviour at the failing input): the `setGraphData` updater of
`handleExpandSelection` has no staleness check — when a fragment produced
for an old graph (here: a child of the departed node `A`) resolves after the
graph has been replaced by one containing only `B`, the fragment is merged
into the replacement instead of being discarded: the stale node is added and
the result differs from the replacement graph. -/
theorem expansion_stale_fragment_merged :
    expandMergeUpdater (some ⟨[mkNode "B" "B"], []⟩)
        ⟨[mkNode "A-child" "Ac"], [mkLink "A" "A-child"]⟩ ≠
      (⟨[mkNode "B" "B"], []⟩ : KnowledgeGraphData) ∧
    mkNode "A-child" "Ac" ∈
      (expandMergeUpdater (some ⟨[mkNode "B" "B"], []⟩)
        ⟨[mkNode "A-child" "Ac"], [mkLink "A" "A-child"]⟩).nodes := by
  decide

/-- C6 (counterexample): after a failed top-level generation the graph is
*not* left at its last-known-good value — `handleGenerate` clears it to null
before calling the collaborator, so on failure the previous graph is gone,
although the error message is surfaced. -/
theorem generate_failure_graph_cleared_counterexample :
    (handleGenerate ⟨"t", some ⟨[mkNode "a" "A"], []⟩, "", [], false, false⟩
        (.error "boom")).graphData ≠
      (⟨"t", some ⟨[mkNode "a" "A"], []⟩, "", [], false, false⟩ : AppState).graphData := by
  decide

/-- C6 (amended): when top-level generation fails, the failure is surfaced
as a user-visible error message, and the graph state is left cleared (it is
reset to null at the start of the attempt), not at its last-known-good
value. -/
theorem generate_failure_error_surfaced_graph_cleared (s : AppState)
    (msg : String) (ht : s.topic ≠ "") (hm : msg ≠ "") :
    (handleGenerate s (.error msg)).graphError = msg ∧
    (handleGenerate s (.error msg)).graphData = none := by
  unfold handleGenerate
  simp [ht, hm]

/-- C6 witness: concrete failed generation surfaces `"boom"` and leaves no
graph. -/
theorem generate_failure_error_surfaced_graph_cleared_witness :
    (handleGenerate ⟨"t", some ⟨[mkNode "a" "A"], []⟩, "", [], false, false⟩
        (.error "boom")).graphError = "boom" ∧
    (handleGenerate ⟨"t", some ⟨[mkNode "a" "A"], []⟩, "", [], false, false⟩
        (.error "boom")).graphData = none :=
  generate_failure_error_surfaced_graph_cleared
    ⟨"t", some ⟨[mkNode "a" "A"], []⟩, "", [], false, false⟩ "boom"
    (by decide) (by decide)

/-- C7 (counterexample): a failed expansion is *not* surfaced as a
distinguishable error — the failure is only logged; the user-visible error
text ends up empty (a pre-existing message is even wiped, because the
handler clears it when the call starts and the catch block sets nothing). -/
theorem expand_failure_not_surfaced_counterexample :
    (handleExpandSelection
        ⟨"t", some ⟨[mkNode "a" "A"], []⟩, "previous error", ["a"], false, false⟩
        (.error "network error")).1.graphError = "" := by
  decide

/-- C7 (amended): when an expansion call fails, the graph is left unchanged
(no partial merge) and the selection set is preserved so the user may retry,
but the failure is not surfaced: the user-visible error text is cleared at
call start and left empty on failure. -/
theorem expand_failure_graph_selection_preserved (s : AppState)
    (g : KnowledgeGraphData) (msg : String) (hg : s.graphData = some g)
    (hsel : s.selectedNodeIds ≠ []) :
    (handleExpandSelection s (.error msg)).1.graphData = s.graphData ∧
    (handleExpandSelection s (.error msg)).1.selectedNodeIds = s.selectedNodeIds ∧
    (handleExpandSelection s (.error msg)).1.graphError = "" := by
  unfold handleExpandSelection
  rw [hg]
  have hne : s.selectedNodeIds.isEmpty = false := by
    simp [List.isEmpty_iff, hsel]
  simp [hne, hg]

/-- C7 witness: concrete failed expansion keeps graph and selection, error
text empty. -/
theorem expand_failure_graph_selection_preserved_witness :
    (handleExpandSelection
        ⟨"t", some ⟨[mkNode "a" "A"], []⟩, "", ["a"], false, false⟩
        (.error "network error")).1.graphData =
      (⟨"t", some ⟨[mkNode "a" "A"], []⟩, "", ["a"], false, false⟩ : AppState).graphData ∧
    (handleExpandSelection
        ⟨"t", some ⟨[mkNode "a" "A"], []⟩, "", ["a"], false, false⟩
        (.error "network error")).1.selectedNodeIds =
      (⟨"t", some ⟨[mkNode "a" "A"], []⟩, "", ["a"], false, false⟩ : AppState).selectedNodeIds ∧
    (handleExpandSelection
        ⟨"t", some ⟨[mkNode "a" "A"], []⟩, "", ["a"], false, false⟩
        (.error "network error")).1.graphError = "" :=
  expand_failure_graph_selection_preserved
    ⟨"t", some ⟨[mkNode "a" "A"], []⟩, "", ["a"], false, false⟩
    ⟨[mkNode "a" "A"], []⟩ "network error" rfl (by decide)

/-- C8: triggering an expansion with an empty selection set is a no-op —
the collaborator is not called (returned flag `false`) and the whole app
state, the graph included, is unchanged. -/
theorem expand_empty_selection_noop (s : AppState)
    (result : Except String KnowledgeGraphData)
    (h : s.selectedNodeIds = []) :
    handleExpandSelection s result = (s, false) := by
  unfold handleExpandSelection
  cases hg : s.graphData with
  | none => rfl
  | some g => simp [h]

/-- C8 witness: concrete empty-selection trigger returns the state unchanged
with no call made. -/
theorem expand_empty_selection_noop_witness :
    handleExpandSelection
        ⟨"t", some ⟨[mkNode "a" "A"], []⟩, "", [], false, false⟩ (.error "e") =
      (⟨"t", some ⟨[mkNode "a" "A"], []⟩, "", [], false, false⟩, false) :=
  expand_empty_selection_noop
    ⟨"t", some ⟨[mkNode "a" "A"], []⟩, "", [], false, false⟩ (.error "e") rfl

/-- C10: the merge deduplicates links by the string key
`source ++ "-" ++ target`, so the distinct ordered pairs `("a-b","c")` and
`("a","b-c")` share one key, and a fragment link that differs from every
existing link as a pair is nevertheless dropped as a duplicate. -/
theorem linkKey_collision_drops_distinct_link :
    linkKey (mkLink "a-b" "c") = linkKey (mkLink "a" "b-c") ∧
    (mkLink "a-b" "c").pair ≠ (mkLink "a" "b-c").pair ∧
    (mergeGraphs
        ⟨[mkNode "a" "A", mkNode "a-b" "AB", mkNode "c" "C", mkNode "b-c" "BC"],
          [mkLink "a" "b-c"]⟩
        ⟨[], [mkLink "a-b" "c"]⟩).links = [mkLink "a" "b-c"] := by
  decide

/-- C9: with graph data and dimensions unchanged, a change to the selection
set re-runs only the highlight effect, never the simulation-building effect,
and the highlight pass is pure presentation: it rewrites stroke, stroke
width, opacity and radius but preserves every node's identity and
position. -/
theorem selection_change_pure_presentation (oldP newP : VizProps)
    (hdata : oldP.data = newP.data) (hw : oldP.width = newP.width)
    (hh : oldP.height = newP.height) :
    simulationEffectRuns oldP newP = false ∧
    (oldP.selectedNodeIds ≠ newP.selectedNodeIds →
      highlightEffectRuns oldP newP = true) ∧
    ∀ sel circles,
      (highlightPass sel circles).map (fun d => (d.id, d.x, d.y)) =
        circles.map fun d => (d.id, d.x, d.y) := by
  refine ⟨?_, ?_, ?_⟩
  · simp [simulationEffectRuns, hdata, hw, hh]
  · intro hsel
    simp [highlightEffectRuns, hdata, hsel]
  · intro sel circles
    simp only [highlightPass, List.map_map]
    rfl

/-- C9 witness: a selection-only change between two concrete prop snapshots
skips the simulation effect, triggers the highlight effect, and the
highlight pass preserves positions. -/
theorem selection_change_pure_presentation_witness :
    simulationEffectRuns ⟨some ⟨[mkNode "a" "A"], []⟩, 800, 600, []⟩
        ⟨some ⟨[mkNode "a" "A"], []⟩, 800, 600, ["a"]⟩ = false ∧
    ((⟨some ⟨[mkNode "a" "A"], []⟩, 800, 600, []⟩ : VizProps).selectedNodeIds ≠
        (⟨some ⟨[mkNode "a" "A"], []⟩, 800, 600, ["a"]⟩ : VizProps).selectedNodeIds →
      highlightEffectRuns ⟨some ⟨[mkNode "a" "A"], []⟩, 800, 600, []⟩
        ⟨some ⟨[mkNode "a" "A"], []⟩, 800, 600, ["a"]⟩ = true) ∧
    ∀ sel circles,
      (highlightPass sel circles).map (fun d => (d.id, d.x, d.y)) =
        circles.map fun d => (d.id, d.x, d.y) :=
  selection_change_pure_presentation
    ⟨some ⟨[mkNode "a" "A"], []⟩, 800, 600, []⟩
    ⟨some ⟨[mkNode "a" "A"], []⟩, 800, 600, ["a"]⟩ rfl rfl rfl
